import Mathlib

/-!
Verification development for the driftSim computational kernel.

The repository ships only the host-side glue (`src/src/RcppExports.cpp`),
which declares the three exported operations `breed`, `breedInPairs` and
`setMigProbs` but not their bodies.  The definitions below are therefore
modelled from the specification of those operations: the random source is
an explicit, seedable state (a stream of fair-coin draws plus a position),
genotypes and litter sizes are integers, and the migration matrix is a
list of rows of rationals.
-/

namespace DriftSim

/-- Modelled from the spec: the shared, seedable random source
(the implementation body behind `Rcpp::RNGScope` in
`src/src/RcppExports.cpp` is not in the repository sources).  The state is
a stream of fair-coin draws `seq` together with the position `pos` of the
next unconsumed draw; consuming one draw advances `pos` by one. -/
structure RNG where
  seq : Nat → Bool
  pos : Nat

/-- Consume one coin flip from the random source. -/
def RNG.next (r : RNG) : Bool × RNG :=
  (r.seq r.pos, ⟨r.seq, r.pos + 1⟩)

/-- The InvalidArgument error condition of the spec's error taxonomy. -/
inductive Err where
  | invalidArgument
deriving DecidableEq

/-- A genotype is valid when it lies in {0,1,2}. -/
def validGeno (g : Int) : Prop := g = 0 ∨ g = 1 ∨ g = 2

instance (g : Int) : Decidable (validGeno g) := by
  unfold validGeno; infer_instance

/-- A parental pair is valid when both genotypes are valid. -/
def validPair (p : Int × Int) : Prop := validGeno p.1 ∧ validGeno p.2

instance (p : Int × Int) : Decidable (validPair p) := by
  unfold validPair; infer_instance

/-- Modelled from the spec: Mendelian gamete transmission (the body of
`breed` is not in the repository sources).  A parent of genotype 0
transmits the non-focal allele surely, genotype 2 transmits the focal
allele surely (neither consumes randomness), and genotype 1 transmits the
focal allele on a fair-coin draw. -/
def transmit (g : Nat) (r : RNG) : Nat × RNG :=
  if g = 0 then (0, r)
  else if g = 2 then (1, r)
  else ((if (r.next).1 then 1 else 0), (r.next).2)

/-- One offspring genotype: the sum of the two transmitted alleles,
mother first then father. -/
def breedOne (g1 g2 : Nat) (r : RNG) : Nat × RNG :=
  let t1 := transmit g1 r
  let t2 := transmit g2 t1.2
  (t1.1 + t2.1, t2.2)

/-- `litter` offspring of one (validated) pair, drawn in order,
threading the random source. -/
def breedRun (g1 g2 : Nat) : Nat → RNG → List Nat × RNG
  | 0, r => ([], r)
  | l + 1, r =>
    let c := breedOne g1 g2 r
    let rest := breedRun g1 g2 l c.2
    (c.1 :: rest.1, rest.2)

/-- Modelled from the spec: the `breed` operation (its body is declared
but not defined in `src/src/RcppExports.cpp`).  Validation is eager: a
negative litter or an out-of-range parental genotype yields
InvalidArgument before any draw, leaving the random-source state
unchanged; otherwise the litter is drawn by Mendelian segregation. -/
def breed (p : Int × Int) (litter : Int) (r : RNG) :
    Except Err (List Nat) × RNG :=
  if litter < 0 ∨ ¬ validPair p then (.error .invalidArgument, r)
  else
    let res := breedRun p.1.toNat p.2.toNat litter.toNat r
    (.ok res.1, res.2)

/-- The batch loop: for each (validated) pair in order, draw a litter and
append, threading the random source pair-by-pair. -/
def breedAll : List (Nat × Nat) → Nat → RNG → List Nat × RNG
  | [], _, r => ([], r)
  | p :: ps, litter, r =>
    let blk := breedRun p.1 p.2 litter r
    let rest := breedAll ps litter blk.2
    (blk.1 ++ rest.1, rest.2)

/-- Modelled from the spec: the `breedInPairs` operation (its body is
declared but not defined in `src/src/RcppExports.cpp`).  Validation is
atomic: if the litter is negative or any pair is invalid the whole call
fails with InvalidArgument before any draw; otherwise each pair's litter
is drawn in input order into one flat output. -/
def breedInPairs (pairs : List (Int × Int)) (litter : Int) (r : RNG) :
    Except Err (List Nat) × RNG :=
  if litter < 0 ∨ ∃ p ∈ pairs, ¬ validPair p then (.error .invalidArgument, r)
  else
    let res := breedAll (pairs.map fun p => (p.1.toNat, p.2.toNat)) litter.toNat r
    (.ok res.1, res.2)

/-- Modelled from the spec for the batch refinement contract: the
reference computation that sequentially calls `breed` on each pair,
threading the random source call-to-call, and collects the per-pair
result blocks in order.  `breedInPairs` is compared against the
flattening of these blocks. -/
def seqBreedBlocks : List (Int × Int) → Int → RNG → List (List Nat) × RNG
  | [], _, r => ([], r)
  | p :: ps, litter, r =>
    let res := breed p litter r
    match res.1 with
    | .ok blk =>
      let rest := seqBreedBlocks ps litter res.2
      (blk :: rest.1, rest.2)
    | .error _ => ([], res.2)

/-- The n-by-n migration matrix for n > 1: diagonal `1 - mig`,
off-diagonal `mig / (n - 1)`. -/
def migMatrix (n : Nat) (mig : ℚ) : List (List ℚ) :=
  (List.range n).map fun i => (List.range n).map fun j =>
    if i = j then 1 - mig else mig / ((n : ℚ) - 1)

/-- Modelled from the spec: the `setMigProbs` operation (its body is
declared but not defined in `src/src/RcppExports.cpp`).  Fails with
InvalidArgument for n < 1 or mig outside [0,1]; returns [[1]] for n = 1
regardless of mig, and otherwise the matrix with diagonal `1 - mig` and
off-diagonal `mig / (n - 1)`.  No randomness is consumed. -/
def setMigProbs (n : Int) (mig : ℚ) : Except Err (List (List ℚ)) :=
  if n < 1 ∨ mig < 0 ∨ 1 < mig then .error .invalidArgument
  else if n = 1 then .ok [[1]]
  else .ok (migMatrix n.toNat mig)

/-- The n-by-n identity matrix as a list of rows. -/
def idMatrix (n : Nat) : List (List ℚ) :=
  (List.range n).map fun i => (List.range n).map fun j =>
    if i = j then 1 else 0

/-- A fixed concrete random-source state, for witnesses. -/
def rng0 : RNG := ⟨fun _ => true, 0⟩

/-- A second concrete random-source state with the same seed stream and
position as `rng0`, written differently. -/
def rng1 : RNG := ⟨fun _ => true, 0 + 0⟩

/-! ### Helper lemmas -/

theorem transmit_fst_le (g : Nat) (r : RNG) : (transmit g r).1 ≤ 1 := by
  unfold transmit
  split_ifs <;> simp

theorem breedOne_fst_le (g1 g2 : Nat) (r : RNG) : (breedOne g1 g2 r).1 ≤ 2 := by
  have h1 := transmit_fst_le g1 r
  have h2 := transmit_fst_le g2 (transmit g1 r).2
  simp only [breedOne]
  omega

theorem breedRun_length (g1 g2 : Nat) (litter : Nat) (r : RNG) :
    (breedRun g1 g2 litter r).1.length = litter := by
  induction litter generalizing r with
  | zero => rfl
  | succ l ih => simp [breedRun, ih]

theorem breedRun_mem_le (g1 g2 : Nat) (litter : Nat) (r : RNG) :
    ∀ x ∈ (breedRun g1 g2 litter r).1, x ≤ 2 := by
  induction litter generalizing r with
  | zero => intro x hx; simp [breedRun] at hx
  | succ l ih =>
    intro x hx
    simp only [breedRun, List.mem_cons] at hx
    rcases hx with h | h
    · exact h ▸ breedOne_fst_le g1 g2 r
    · exact ih _ x h

theorem breed_valid (p : Int × Int) (litter : Int) (r : RNG)
    (hL : 0 ≤ litter) (hp : validPair p) :
    breed p litter r =
      (.ok (breedRun p.1.toNat p.2.toNat litter.toNat r).1,
        (breedRun p.1.toNat p.2.toNat litter.toNat r).2) := by
  unfold breed
  rw [if_neg]
  push_neg
  exact ⟨hL, hp⟩

theorem breedRun_zero_zero (litter : Nat) (r : RNG) :
    breedRun 0 0 litter r = (List.replicate litter 0, r) := by
  induction litter generalizing r with
  | zero => rfl
  | succ l ih => simp [breedRun, breedOne, transmit, ih, List.replicate_succ]

theorem breedRun_two_two (litter : Nat) (r : RNG) :
    breedRun 2 2 litter r = (List.replicate litter 2, r) := by
  induction litter generalizing r with
  | zero => rfl
  | succ l ih => simp [breedRun, breedOne, transmit, ih, List.replicate_succ]

theorem breedRun_zero_two (litter : Nat) (r : RNG) :
    breedRun 0 2 litter r = (List.replicate litter 1, r) := by
  induction litter generalizing r with
  | zero => rfl
  | succ l ih => simp [breedRun, breedOne, transmit, ih, List.replicate_succ]

theorem breedInPairs_valid (pairs : List (Int × Int)) (litter : Int) (r : RNG)
    (hL : 0 ≤ litter) (hv : ∀ p ∈ pairs, validPair p) :
    breedInPairs pairs litter r =
      (.ok (breedAll (pairs.map fun p => (p.1.toNat, p.2.toNat)) litter.toNat r).1,
        (breedAll (pairs.map fun p => (p.1.toNat, p.2.toNat)) litter.toNat r).2) := by
  unfold breedInPairs
  rw [if_neg]
  push_neg
  exact ⟨hL, hv⟩

theorem breedAll_eq_seqBlocks (pairs : List (Int × Int)) (litter : Int) (r : RNG)
    (hL : 0 ≤ litter) (hv : ∀ p ∈ pairs, validPair p) :
    breedAll (pairs.map fun p => (p.1.toNat, p.2.toNat)) litter.toNat r =
      ((seqBreedBlocks pairs litter r).1.flatten, (seqBreedBlocks pairs litter r).2) := by
  induction pairs generalizing r with
  | nil => rfl
  | cons p ps ih =>
    have hb := breed_valid p litter r hL (hv p (List.mem_cons_self p ps))
    have ihp := ih (breedRun p.1.toNat p.2.toNat litter.toNat r).2
      fun q hq => hv q (List.mem_cons_of_mem p hq)
    simp [breedAll, seqBreedBlocks, hb, ihp]

theorem seqBreedBlocks_count (pairs : List (Int × Int)) (litter : Int) (r : RNG)
    (hL : 0 ≤ litter) (hv : ∀ p ∈ pairs, validPair p) :
    (seqBreedBlocks pairs litter r).1.length = pairs.length := by
  induction pairs generalizing r with
  | nil => rfl
  | cons p ps ih =>
    have hb := breed_valid p litter r hL (hv p (List.mem_cons_self p ps))
    have ihp := ih (breedRun p.1.toNat p.2.toNat litter.toNat r).2
      fun q hq => hv q (List.mem_cons_of_mem p hq)
    simp [seqBreedBlocks, hb, ihp]

theorem seqBreedBlocks_lengths (pairs : List (Int × Int)) (litter : Int) (r : RNG)
    (hL : 0 ≤ litter) (hv : ∀ p ∈ pairs, validPair p) :
    ∀ blk ∈ (seqBreedBlocks pairs litter r).1, blk.length = litter.toNat := by
  induction pairs generalizing r with
  | nil => intro blk h; simp [seqBreedBlocks] at h
  | cons p ps ih =>
    have hb := breed_valid p litter r hL (hv p (List.mem_cons_self p ps))
    intro blk h
    simp only [seqBreedBlocks, hb, List.mem_cons] at h
    rcases h with h | h
    · rw [h]; exact breedRun_length _ _ _ _
    · exact ih (breedRun p.1.toNat p.2.toNat litter.toNat r).2
        (fun q hq => hv q (List.mem_cons_of_mem p hq)) blk h

theorem join_block {α : Type} (ll : List (List α)) (L : Nat)
    (h : ∀ l ∈ ll, l.length = L) :
    ∀ i (hi : i < ll.length),
      ((ll.flatten.drop (i * L)).take L) = ll.get ⟨i, hi⟩ := by
  induction ll with
  | nil => intro i hi; simp at hi
  | cons a t ih =>
    intro i hi
    match i with
    | 0 =>
      simp only [Nat.zero_mul, List.drop_zero, List.flatten, List.get]
      exact List.take_left' (h a (List.mem_cons_self a t))
    | j + 1 =>
      have ha : a.length = L := h a (List.mem_cons_self a t)
      have hstep : ((a :: t).flatten).drop ((j + 1) * L) = t.flatten.drop (j * L) := by
        rw [List.flatten, Nat.succ_mul, Nat.add_comm, ← List.drop_drop,
          List.drop_left' ha]
      rw [hstep]
      exact ih (fun l hl => h l (List.mem_cons_of_mem a hl)) j (Nat.lt_of_succ_lt_succ hi)

theorem range_map_const_sum (n : Nat) (b : ℚ) :
    ((List.range n).map fun _ => b).sum = (n : ℚ) * b := by
  rw [List.map_const', List.length_range, List.sum_replicate, nsmul_eq_mul]

theorem range_map_ite_sum (n i : Nat) (hi : i < n) (a b : ℚ) :
    ((List.range n).map fun j => if i = j then a else b).sum
      = a + ((n : ℚ) - 1) * b := by
  induction n with
  | zero => omega
  | succ m ih =>
    rw [List.range_succ, List.map_append, List.sum_append]
    rcases Nat.lt_or_ge i m with him | him
    · rw [ih him]
      have : (if i = m then a else b) = b := if_neg (by omega)
      simp only [List.map_cons, List.map_nil, List.sum_cons, List.sum_nil, this]
      push_cast
      ring
    · have him2 : i = m := by omega
      have hconst : (List.range m).map (fun j => if i = j then a else b)
          = (List.range m).map fun _ => b := by
        apply List.map_congr_left
        intro j hj
        rw [List.mem_range] at hj
        exact if_neg (by omega)
      rw [hconst, range_map_const_sum]
      simp only [List.map_cons, List.map_nil, List.sum_cons, List.sum_nil,
        if_pos him2]
      push_cast
      ring

/-! ### Claim theorems -/

/-- C1: for every parental pair with both genotypes in {0,1,2} and every
litter size L ≥ 0, `breed` returns a sequence of exactly L genotypes,
each in {0,1,2}. -/
theorem breed_returns_litter_genotypes (p : Int × Int) (litter : Int) (r : RNG)
    (hL : 0 ≤ litter) (hp : validPair p) :
    ∃ l r1, breed p litter r = (.ok l, r1) ∧ l.length = litter.toNat ∧
      ∀ g ∈ l, g = 0 ∨ g = 1 ∨ g = 2 := by
  refine ⟨_, _, breed_valid p litter r hL hp, breedRun_length _ _ _ _, ?_⟩
  intro g hg
  have := breedRun_mem_le p.1.toNat p.2.toNat litter.toNat r g hg
  omega

/-- Witness for C1 at pair (1,1), litter 3. -/
theorem breed_returns_litter_genotypes_witness :
    ∃ l r1, breed (1, 1) 3 rng0 = (.ok l, r1) ∧ l.length = (3 : Int).toNat ∧
      ∀ g ∈ l, g = 0 ∨ g = 1 ∨ g = 2 :=
  breed_returns_litter_genotypes (1, 1) 3 rng0 (by decide) (by decide)

/-- C5: `breed((0,0), L)` returns L zeros, `breed((2,2), L)` returns L
twos, `breed((0,2), L)` returns L ones; in the (0,0) and (2,2) cases (and
in fact also the (0,2) case) the random-source state is unchanged, so no
randomness is consumed. -/
theorem breed_deterministic_cases (litter : Int) (r : RNG) (hL : 0 ≤ litter) :
    breed (0, 0) litter r = (.ok (List.replicate litter.toNat 0), r) ∧
    breed (2, 2) litter r = (.ok (List.replicate litter.toNat 2), r) ∧
    breed (0, 2) litter r = (.ok (List.replicate litter.toNat 1), r) := by
  refine ⟨?_, ?_, ?_⟩
  · rw [breed_valid (0, 0) litter r hL (by decide)]
    simp [breedRun_zero_zero]
  · rw [breed_valid (2, 2) litter r hL (by decide)]
    simp [breedRun_two_two]
  · rw [breed_valid (0, 2) litter r hL (by decide)]
    simp [breedRun_zero_two]

/-- Witness for C5 at litter 4. -/
theorem breed_deterministic_cases_witness :
    breed (0, 0) 4 rng0 = (.ok (List.replicate (4 : Int).toNat 0), rng0) ∧
    breed (2, 2) 4 rng0 = (.ok (List.replicate (4 : Int).toNat 2), rng0) ∧
    breed (0, 2) 4 rng0 = (.ok (List.replicate (4 : Int).toNat 1), rng0) :=
  breed_deterministic_cases 4 rng0 (by decide)

/-- C10: an empty batch succeeds with the empty output and leaves the
random-source state unchanged. -/
theorem breedInPairs_empty_batch (litter : Int) (r : RNG) (hL : 0 ≤ litter) :
    breedInPairs [] litter r = (.ok [], r) := by
  rw [breedInPairs_valid [] litter r hL (by simp)]
  rfl

/-- Witness for C10 at litter 5. -/
theorem breedInPairs_empty_batch_witness :
    breedInPairs [] 5 rng0 = (.ok [], rng0) :=
  breedInPairs_empty_batch 5 rng0 (by decide)

/-- C7: batch validation is atomic: a negative litter or any invalid pair
fails the whole call with InvalidArgument, produces no output, and leaves
the random-source state unchanged. -/
theorem breedInPairs_atomic_validation (pairs : List (Int × Int))
    (litter : Int) (r : RNG)
    (h : litter < 0 ∨ ∃ p ∈ pairs, ¬ validPair p) :
    breedInPairs pairs litter r = (.error .invalidArgument, r) := by
  unfold breedInPairs
  rw [if_pos h]

/-- Witness for C7: one valid pair followed by an invalid one. -/
theorem breedInPairs_atomic_validation_witness :
    breedInPairs [(0, 0), (7, 0)] 3 rng0 = (.error .invalidArgument, rng0) :=
  breedInPairs_atomic_validation [(0, 0), (7, 0)] 3 rng0 (by decide)

/-- C4: a negative litter or out-of-range genotype makes `breed` and
`breedInPairs` fail with InvalidArgument with the random-source state
unchanged, and n < 1 or mig outside [0,1] makes `setMigProbs` fail with
InvalidArgument (it takes no random source at all). -/
theorem invalid_args_rejected (p : Int × Int) (pairs : List (Int × Int))
    (litter n : Int) (mig : ℚ) (r : RNG) :
    (litter < 0 ∨ ¬ validPair p →
      breed p litter r = (.error .invalidArgument, r)) ∧
    (litter < 0 ∨ (∃ q ∈ pairs, ¬ validPair q) →
      breedInPairs pairs litter r = (.error .invalidArgument, r)) ∧
    (n < 1 ∨ mig < 0 ∨ 1 < mig →
      setMigProbs n mig = .error .invalidArgument) := by
  refine ⟨fun h => ?_, fun h => ?_, fun h => ?_⟩
  · unfold breed
    rw [if_pos h]
  · unfold breedInPairs
    rw [if_pos h]
  · unfold setMigProbs
    rw [if_pos h]

/-- Witness for C4: out-of-range genotype 3, invalid pair in a batch, and
deme count 0. -/
theorem invalid_args_rejected_witness :
    breed (3, 0) 2 rng0 = (.error .invalidArgument, rng0) ∧
    breedInPairs [(0, 0), (5, 1)] 2 rng0 = (.error .invalidArgument, rng0) ∧
    setMigProbs 0 (1 / 2) = .error .invalidArgument :=
  ⟨(invalid_args_rejected (3, 0) [] 2 1 0 rng0).1 (by decide),
   (invalid_args_rejected (0, 0) [(0, 0), (5, 1)] 2 1 0 rng0).2.1 (by decide),
   (invalid_args_rejected (0, 0) [] 0 0 (1 / 2) rng0).2.2 (Or.inl (by decide))⟩

/-- C8: migration rate 0 yields the n-by-n identity matrix. -/
theorem setMigProbs_zero_identity (n : Int) (hn : 1 ≤ n) :
    setMigProbs n 0 = .ok (idMatrix n.toNat) := by
  unfold setMigProbs
  rw [if_neg (by push_neg; exact ⟨hn, le_rfl, by norm_num⟩)]
  by_cases h1 : n = 1
  · subst h1
    rfl
  · rw [if_neg h1]
    congr 1
    unfold migMatrix idMatrix
    apply List.map_congr_left
    intro i _
    apply List.map_congr_left
    intro j _
    split <;> simp

/-- Witness for C8 at n = 2. -/
theorem setMigProbs_zero_identity_witness :
    setMigProbs 2 0 = .ok (idMatrix (2 : Int).toNat) :=
  setMigProbs_zero_identity 2 (by decide)

/-- C2: for n = 1 the result is [[1]] regardless of mig; for n > 1 the
result is the n-by-n matrix with diagonal `1 - mig` and off-diagonal
`mig / (n - 1)`; and `setMigProbs(3, 0.3)` is the worked example. -/
theorem setMigProbs_formula (n : Int) (mig : ℚ)
    (hn : 1 ≤ n) (h0 : 0 ≤ mig) (h1 : mig ≤ 1) :
    (n = 1 → setMigProbs n mig = .ok [[1]]) ∧
    (1 < n → ∃ M, setMigProbs n mig = .ok M ∧ M.length = n.toNat ∧
      (∀ row ∈ M, row.length = n.toNat) ∧
      ∀ i j, i < n.toNat → j < n.toNat →
        (M.getD i []).getD j 0 =
          if i = j then 1 - mig else mig / ((n : ℚ) - 1)) ∧
    setMigProbs 3 (3 / 10) =
      .ok [[7/10, 3/20, 3/20], [3/20, 7/10, 3/20], [3/20, 3/20, 7/10]] := by
  have hok : ¬ ((n : Int) < 1 ∨ mig < 0 ∨ 1 < mig) := by
    push_neg
    exact ⟨hn, h0, h1⟩
  refine ⟨fun he => ?_, fun hgt => ?_, ?_⟩
  · subst he
    unfold setMigProbs
    rw [if_neg hok, if_pos rfl]
  · have htn : ((n.toNat : ℚ)) = (n : ℚ) := by
      rw [← Int.cast_natCast, Int.toNat_of_nonneg (by omega)]
    refine ⟨migMatrix n.toNat mig, ?_, ?_, ?_, ?_⟩
    · unfold setMigProbs
      rw [if_neg hok, if_neg (by omega)]
    · simp [migMatrix]
    · intro row hrow
      unfold migMatrix at hrow
      rw [List.mem_map] at hrow
      obtain ⟨i, _, rfl⟩ := hrow
      simp
    · intro i j hi hj
      unfold migMatrix
      simp [List.getD_eq_getElem?_getD, List.getElem?_map, List.getElem?_range,
        hi, hj, htn]
  · norm_num [setMigProbs, migMatrix, List.range_succ,
      show ((3 : Int).toNat = 3) from rfl]

/-- Witness for C2 at n = 3, mig = 3/10. -/
theorem setMigProbs_formula_witness :
    ((3 : Int) = 1 → setMigProbs 3 (3 / 10) = .ok [[1]]) ∧
    (1 < (3 : Int) → ∃ M, setMigProbs 3 (3 / 10) = .ok M ∧
      M.length = (3 : Int).toNat ∧
      (∀ row ∈ M, row.length = (3 : Int).toNat) ∧
      ∀ i j, i < (3 : Int).toNat → j < (3 : Int).toNat →
        (M.getD i []).getD j 0 =
          if i = j then 1 - 3 / 10 else 3 / 10 / (((3 : Int) : ℚ) - 1)) ∧
    setMigProbs 3 (3 / 10) =
      .ok [[7/10, 3/20, 3/20], [3/20, 7/10, 3/20], [3/20, 3/20, 7/10]] :=
  setMigProbs_formula 3 (3 / 10) (by decide) (by norm_num) (by norm_num)

/-- C6: for valid n and mig, every entry of the migration matrix is
non-negative and each row sums exactly to 1. -/
theorem setMigProbs_rows_stochastic (n : Int) (mig : ℚ)
    (hn : 1 ≤ n) (h0 : 0 ≤ mig) (h1 : mig ≤ 1) :
    ∃ M, setMigProbs n mig = .ok M ∧
      ∀ row ∈ M, (∀ x ∈ row, 0 ≤ x) ∧ row.sum = 1 := by
  have hok : ¬ ((n : Int) < 1 ∨ mig < 0 ∨ 1 < mig) := by
    push_neg
    exact ⟨hn, h0, h1⟩
  by_cases he : n = 1
  · subst he
    refine ⟨[[1]], ?_, ?_⟩
    · unfold setMigProbs
      rw [if_neg hok, if_pos rfl]
    · intro row hrow
      rw [List.mem_singleton] at hrow
      subst hrow
      refine ⟨?_, by simp⟩
      intro x hx
      rw [List.mem_singleton] at hx
      subst hx
      norm_num
  · have h2 : 2 ≤ n.toNat := by omega
    have hc : (0 : ℚ) < (n.toNat : ℚ) - 1 := by
      have : (2 : ℚ) ≤ (n.toNat : ℚ) := by exact_mod_cast h2
      linarith
    refine ⟨migMatrix n.toNat mig, ?_, ?_⟩
    · unfold setMigProbs
      rw [if_neg hok, if_neg he]
    · intro row hrow
      unfold migMatrix at hrow
      rw [List.mem_map] at hrow
      obtain ⟨i, hi, rfl⟩ := hrow
      rw [List.mem_range] at hi
      constructor
      · intro x hx
        rw [List.mem_map] at hx
        obtain ⟨j, _, rfl⟩ := hx
        split
        · linarith
        · exact div_nonneg h0 (le_of_lt hc)
      · rw [range_map_ite_sum n.toNat i hi]
        rw [mul_comm, div_mul_cancel₀ mig (ne_of_gt hc)]
        ring

/-- Witness for C6 at n = 3, mig = 3/10. -/
theorem setMigProbs_rows_stochastic_witness :
    ∃ M, setMigProbs 3 (3 / 10) = .ok M ∧
      ∀ row ∈ M, (∀ x ∈ row, 0 ≤ x) ∧ row.sum = 1 :=
  setMigProbs_rows_stochastic 3 (3 / 10) (by decide) (by norm_num) (by norm_num)

/-- C3: on valid pairs, `breedInPairs` returns exactly the flattening of
the blocks produced by sequentially calling `breed` on each pair while
threading the random source, ends in the same final random-source state,
produces `k * litter` offspring, and block i of the flat output (the slice
[i*litter, (i+1)*litter)) is the i-th sequential `breed` result. -/
theorem breedInPairs_refines_seq (pairs : List (Int × Int)) (litter : Int)
    (r : RNG) (hL : 0 ≤ litter) (hv : ∀ p ∈ pairs, validPair p) :
    breedInPairs pairs litter r =
      (.ok (seqBreedBlocks pairs litter r).1.flatten,
        (seqBreedBlocks pairs litter r).2) ∧
    (seqBreedBlocks pairs litter r).1.length = pairs.length ∧
    (seqBreedBlocks pairs litter r).1.flatten.length
      = pairs.length * litter.toNat ∧
    ∀ i (hi : i < (seqBreedBlocks pairs litter r).1.length),
      (((seqBreedBlocks pairs litter r).1.flatten.drop
          (i * litter.toNat)).take litter.toNat)
        = (seqBreedBlocks pairs litter r).1.get ⟨i, hi⟩ := by
  have h1 := breedInPairs_valid pairs litter r hL hv
  have h2 := breedAll_eq_seqBlocks pairs litter r hL hv
  have hcnt := seqBreedBlocks_count pairs litter r hL hv
  have hlens := seqBreedBlocks_lengths pairs litter r hL hv
  refine ⟨?_, hcnt, ?_, ?_⟩
  · rw [h1, h2]
  · rw [List.length_flatten]
    have hrep : (seqBreedBlocks pairs litter r).1.map List.length
        = List.replicate pairs.length litter.toNat := by
      rw [List.eq_replicate_iff]
      refine ⟨by rw [List.length_map, hcnt], ?_⟩
      intro b hb
      rw [List.mem_map] at hb
      obtain ⟨blk, hblk, rfl⟩ := hb
      exact hlens blk hblk
    rw [hrep, List.sum_replicate, smul_eq_mul]
  · intro i hi
    exact join_block (seqBreedBlocks pairs litter r).1 litter.toNat hlens i hi

/-- Witness for C3 at two valid pairs and litter 2. -/
theorem breedInPairs_refines_seq_witness :
    breedInPairs [(1, 1), (0, 1)] 2 rng0 =
      (.ok (seqBreedBlocks [(1, 1), (0, 1)] 2 rng0).1.flatten,
        (seqBreedBlocks [(1, 1), (0, 1)] 2 rng0).2) ∧
    (seqBreedBlocks [(1, 1), (0, 1)] 2 rng0).1.length
      = [((1 : Int), (1 : Int)), (0, 1)].length ∧
    (seqBreedBlocks [(1, 1), (0, 1)] 2 rng0).1.flatten.length
      = [((1 : Int), (1 : Int)), (0, 1)].length * (2 : Int).toNat ∧
    ∀ i (hi : i < (seqBreedBlocks [(1, 1), (0, 1)] 2 rng0).1.length),
      (((seqBreedBlocks [(1, 1), (0, 1)] 2 rng0).1.flatten.drop
          (i * (2 : Int).toNat)).take (2 : Int).toNat)
        = (seqBreedBlocks [(1, 1), (0, 1)] 2 rng0).1.get ⟨i, hi⟩ :=
  breedInPairs_refines_seq [(1, 1), (0, 1)] 2 rng0 (by decide) (by decide)

/-- C9: each operation is a deterministic function of its inputs and the
random-source state: two runs from equal seed streams and equal positions
produce identical outputs and identical final random-source states
(`setMigProbs` takes no random source at all, by its type). -/
theorem operations_reproducible (p : Int × Int) (pairs : List (Int × Int))
    (litter : Int) (r1 r2 : RNG)
    (hseq : ∀ k, r1.seq k = r2.seq k) (hpos : r1.pos = r2.pos) :
    breed p litter r1 = breed p litter r2 ∧
    breedInPairs pairs litter r1 = breedInPairs pairs litter r2 := by
  obtain ⟨s1, q1⟩ := r1
  obtain ⟨s2, q2⟩ := r2
  have hs : s1 = s2 := funext hseq
  have hq : q1 = q2 := hpos
  subst hs
  subst hq
  exact ⟨rfl, rfl⟩

/-- Witness for C9: two identically seeded random-source states. -/
theorem operations_reproducible_witness :
    breed (1, 1) 2 rng0 = breed (1, 1) 2 rng1 ∧
    breedInPairs [(1, 1)] 2 rng0 = breedInPairs [(1, 1)] 2 rng1 :=
  operations_reproducible (1, 1) [(1, 1)] 2 rng0 rng1 (fun _ => rfl) rfl

end DriftSim
